import Mathlib

/-!
Shallow embedding of `check.py` from the gns3-registry repository, together
with theorems checking the natural-language specification against it.

The Python script validates appliance descriptor files, symbol (icon) files
and packer files.  Pure fragments become Lean functions; the process-global
mutable state (`APPLIANCE_IDS`, `warnings`) becomes an explicit `RunState`
threaded through the checks; `sys.exit(1)` becomes `Except.error`.
File-system access (`os.listdir`, `os.path.exists`, image-height probing)
and the third-party `jsonschema.validate` call are abstracted as function
parameters, so every definition stays executable.
-/

namespace GNS3

/-- JSON values as produced by `json.load`: objects are ordered association
lists (Python dicts preserve insertion order and, coming from `json.load`,
have pairwise distinct keys). -/
inductive Json where
  | null : Json
  | bool : Bool → Json
  | num : Int → Json
  | str : String → Json
  | arr : List Json → Json
  | obj : List (String × Json) → Json

/-- Membership test for a key in an object's field list, the embedding of
Python's `'k' in schema` for a dict. -/
def hasKey (fs : List (String × Json)) (k : String) : Bool :=
  (fs.map Prod.fst).contains k

/-- Whether a value is a JSON object, the embedding of
`isinstance(x, dict)`. -/
def isObj : Json → Bool
  | .obj _ => true
  | _ => false

/-- Embedding of `schema['additionalProperties'] = False` guarded by
`'additionalProperties' not in schema`: a Python dict assignment to a fresh
key appends the entry at the end. -/
def addAP (fs : List (String × Json)) : List (String × Json) :=
  if hasKey fs "additionalProperties" then fs
  else fs ++ [("additionalProperties", Json.bool false)]

mutual

/-- Embedding of `no_additional_properties(schema)` from `check.py`.  The
Python function mutates its argument in place; here the transformed value is
returned.  If the object has an `items` key the function operates on that
value instead (`schema = schema['items']`); then, if the (redirected) value
is an object declaring `properties`, `additionalProperties` is set to
`false` when absent and the recursion descends into every dict-valued
property.  Non-object values are returned unchanged (the original would
only ever reach such a value through an `items` redirect, where a non-dict
either does nothing or raises; the raising inputs are outside this model). -/
def no_additional_properties : Json → Json
  | .obj fs =>
      if hasKey fs "items" then .obj (napItemsFields fs)
      else if hasKey fs "properties" then .obj (addAP (napSetProps fs))
      else .obj fs
  | j => j

/-- Replace the value of the `items` field by the body of
`no_additional_properties` applied to it (the Python in-place mutation of
`schema['items']` seen from the parent object). -/
def napItemsFields : List (String × Json) → List (String × Json)
  | [] => []
  | (k, v) :: rest =>
      (if k = "items" then (k, napCore v) else (k, v)) :: napItemsFields rest

/-- The part of `no_additional_properties` after the `items` redirect:
applied to the value of `items`, with no further redirect. -/
def napCore : Json → Json
  | .obj fs =>
      if hasKey fs "properties" then .obj (addAP (napSetProps fs))
      else .obj fs
  | j => j

/-- Replace the value of the `properties` field by its recursively
tightened form. -/
def napSetProps : List (String × Json) → List (String × Json)
  | [] => []
  | (k, v) :: rest =>
      (if k = "properties" then (k, napProps v) else (k, v)) :: napSetProps rest

/-- Recurse into a `properties` map: every dict-valued entry is tightened by
a full recursive call (`isinstance(schema['properties'][key], dict)` guard
in the source); non-object property maps are left unchanged. -/
def napProps : Json → Json
  | .obj ps => .obj (napPropsFields ps)
  | j => j

/-- Pointwise recursion over the entries of a `properties` map. -/
def napPropsFields : List (String × Json) → List (String × Json)
  | [] => []
  | (k, v) :: rest =>
      (if isObj v then (k, no_additional_properties v) else (k, v)) :: napPropsFields rest

end

/-- Diagnostics printed right before `sys.exit(1)` in `check.py`; each
constructor corresponds to one fatal `print`/`exit` site. -/
inductive Err where
  | unsupportedVersion (version : Int)
  | schemaInvalid
  | duplicateApplianceId (id : Option String)
  | duplicateFilename (filename : String)
  | duplicateMd5 (md5sum : String)
  | missingRelation (image : String) (version : String)
  | versionMismatch (version : String)
  | missingLicence (path : String)
  | symbolTooBig (symbol : String) (height : Int)
deriving DecidableEq, Repr

deriving instance DecidableEq for Except

/-- One entry of a descriptor's `images` list: the fields `check_appliance`
reads from it. -/
structure Image where
  filename : String
  md5sum : String
  version : String
deriving DecidableEq, Repr

/-- One entry of a descriptor's `versions` list: `name` and the `images`
mapping from role name to image filename (a dict, kept here as an ordered
association list so that `.values()` is `map Prod.snd`). -/
structure Version where
  name : String
  images : List (String × String)
deriving DecidableEq, Repr

/-- The fields of a schema-valid appliance descriptor that `check_appliance`
and `validate_schema` read.  `appliance_id` is fetched with `.get` (hence
`Option`); `images` is `Option` because the whole image/version block is
guarded by `'images' in appliance_json`. -/
structure Appliance where
  registry_version : Int
  appliance_id : Option String
  images : Option (List Image)
  versions : List Version
deriving DecidableEq, Repr

/-- The process-global mutable state of `check.py`: the `APPLIANCE_IDS`
list and the `warnings` counter. -/
structure RunState where
  applianceIds : List (Option String)
  warnings : Nat
deriving DecidableEq, Repr

/-- `SCHEMA_VERSIONS = [3, 4, 5, 6]`. -/
def SCHEMA_VERSIONS : List Int := [3, 4, 5, 6]

/-- Embedding of `validate_schema(appliance_json, name, schemas)`.  The
third-party `jsonschema.validate` call against the tightened schema for
version `v` is abstracted as the boolean parameter `valid v doc`
(`true` = no `ValidationError` raised).  Returns the number of downgrade
warnings emitted (`0` or `1`), or the fatal diagnostic.  The downgrade
probe validates a copy of the descriptor whose `registry_version` has been
lowered by one. -/
def validate_schema (valid : Int → Appliance → Bool) (a : Appliance) :
    Except Err Nat :=
  let version := a.registry_version
  if version ∈ SCHEMA_VERSIONS then
    if valid version a then
      if version ≠ SCHEMA_VERSIONS[0]! then
        let version := version - 1
        if valid version { a with registry_version := version } then .ok 1
        else .ok 0
      else .ok 0
    else .error .schemaInvalid
  else .error (.unsupportedVersion version)

/-- Embedding of the `for image in appliance_json['images']` loop of
`check_appliance`: `images` is the accumulated filename-to-version dict,
`md5s` the accumulated md5 set (both start empty at each call).  Returns
the final dict, set and state, or the first fatal diagnostic. -/
def checkImagesLoop (versions : List Version) :
    List Image → List (String × String) → List String → RunState →
    Except Err (List (String × String) × List String × RunState)
  | [], images, md5s, st => .ok (images, md5s, st)
  | img :: rest, images, md5s, st =>
      if (images.map Prod.fst).contains img.filename then
        .error (.duplicateFilename img.filename)
      else if md5s.contains img.md5sum then
        .error (.duplicateMd5 img.md5sum)
      else
        let versions_found :=
          versions.any fun v => (v.images.map Prod.snd).contains img.filename
        let st := if versions_found then st
                  else { st with warnings := st.warnings + 1 }
        checkImagesLoop versions rest (images ++ [(img.filename, img.version)])
          (md5s ++ [img.md5sum]) st

/-- Embedding of the inner `for image in version['images'].values()` loop:
`acc` is the running `version_match` flag.  Fails on a filename absent from
the accumulated `images` dict. -/
def versionImagesLoop (images : List (String × String)) (v : Version) :
    List String → Bool → Except Err Bool
  | [], acc => .ok acc
  | fn :: rest, acc =>
      match images.lookup fn with
      | none => .error (.missingRelation fn v.name)
      | some ver => versionImagesLoop images v rest (acc || (ver == v.name))

/-- Embedding of one iteration of the `for version in
appliance_json['versions']` loop: runs the inner loop with
`version_match = False` and fails when no referenced image belongs to the
version. -/
def checkOneVersion (images : List (String × String)) (v : Version) :
    Except Err Unit :=
  match versionImagesLoop images v (v.images.map Prod.snd) false with
  | .error e => .error e
  | .ok b => if b then .ok () else .error (.versionMismatch v.name)

/-- Embedding of the whole `for version in appliance_json['versions']`
loop. -/
def checkVersionsLoop (images : List (String × String)) :
    List Version → Except Err Unit
  | [] => .ok ()
  | v :: rest =>
      match checkOneVersion images v with
      | .error e => .error e
      | .ok _ => checkVersionsLoop images rest

/-- Embedding of `check_appliance(appliance, appliance_path)` on an already
parsed descriptor.  The local registries `images = {}` and
`md5sums = set()` are created afresh on every call; only `APPLIANCE_IDS`
and `warnings` (the `RunState`) persist across calls. -/
def check_appliance (valid : Int → Appliance → Bool) (a : Appliance)
    (st : RunState) : Except Err RunState :=
  match validate_schema valid a with
  | .error e => .error e
  | .ok w =>
      let st1 : RunState := ⟨st.applianceIds, st.warnings + w⟩
      if a.appliance_id ∈ st1.applianceIds then
        .error (.duplicateApplianceId a.appliance_id)
      else
        let st2 : RunState := ⟨st1.applianceIds ++ [a.appliance_id], st1.warnings⟩
        match a.images with
        | none => .ok st2
        | some imgs =>
            match checkImagesLoop a.versions imgs [] [] st2 with
            | .error e => .error e
            | .ok (images, _md5s, st3) =>
                match checkVersionsLoop images a.versions with
                | .error e => .error e
                | .ok _ => .ok st3

/-- Embedding of `main`'s appliance pass: `check_appliance` on each
discovered descriptor in order, threading the global state. -/
def checkAppliances (valid : Int → Appliance → Bool) :
    List Appliance → RunState → Except Err RunState
  | [], st => .ok st
  | a :: rest, st =>
      match check_appliance valid a st with
      | .error e => .error e
      | .ok st' => checkAppliances valid rest st'

/-- Character-level embedding of Python's `str.replace(old, new)`: replace
every non-overlapping occurrence of `old`, scanning left to right.  The
`Nat` argument counts characters still to skip after a match (structural
recursion on the string). -/
def pyReplaceAux (old new : List Char) : List Char → Nat → List Char
  | [], _ => []
  | _c :: rest, Nat.succ k => pyReplaceAux old new rest k
  | c :: rest, 0 =>
      if old ≠ [] ∧ old.isPrefixOf (c :: rest) then
        new ++ pyReplaceAux old new rest (old.length - 1)
      else c :: pyReplaceAux old new rest 0

/-- Embedding of `s.replace(old, new)` on `String`. -/
def pyReplace (s old new : String) : String :=
  ⟨pyReplaceAux old.data new.data s.data 0⟩

/-- Embedding of Python's `s.endswith(suffix)` at the character level. -/
def pyEndsWith (s suffix : String) : Bool :=
  suffix.data.isSuffixOf s.data

/-- Embedding of `os.path.join(a, b)` for the relative paths used here. -/
def pathJoin (a b : String) : String := a ++ "/" ++ b

/-- The licence-file path computed by `check_symbol`:
`os.path.join(symbols_path, symbol.replace('.svg', '.txt'))`. -/
def licence_file (symbols_path symbol : String) : String :=
  pathJoin symbols_path (pyReplace symbol ".svg" ".txt")

/-- Embedding of `check_symbol(symbol, symbols_path)`.  File-system access
is abstracted: `fsExists p` embeds `os.path.exists(p)` and `height p` the
measured pixel height of the image at `p` (via ImageMagick or the
`picture` fallback — both yield the same integer in this model). -/
def check_symbol (fsExists : String → Bool) (height : String → Int)
    (symbol : String) (symbols_path : String) : Except Err Unit :=
  let licenceFile := licence_file symbols_path symbol
  if ¬ fsExists licenceFile then .error (.missingLicence licenceFile)
  else
    let h := height (pathJoin symbols_path symbol)
    if h > 70 then .error (.symbolTooBig symbol h)
    else .ok ()

/-- Embedding of `main`'s symbol loop body over the entries of
`os.listdir(args.symbols_dir)`: every `.svg` entry is passed to
`check_symbol(symbol)` — note the source calls it WITHOUT a directory
argument, so the Python default `symbols_path='symbols'` is used here. -/
def symbolsLoop (fsExists : String → Bool) (height : String → Int) :
    List String → Except Err Unit
  | [] => .ok ()
  | s :: rest =>
      if pyEndsWith s ".svg" then
        match check_symbol fsExists height s "symbols" with
        | .error e => .error e
        | .ok _ => symbolsLoop fsExists height rest
      else symbolsLoop fsExists height rest

/-- Embedding of `main`'s symbol pass: enumerate `args.symbols_dir`
(`listdir` abstracts `os.listdir`) and check each `.svg` entry. -/
def symbolsPhase (listdir : String → List String) (fsExists : String → Bool)
    (height : String → Int) (symbols_dir : String) : Except Err Unit :=
  symbolsLoop fsExists height (listdir symbols_dir)

/-- A validation oracle accepting every document at every version, used to
run the checker on concrete descriptors. -/
def allValid : Int → Appliance → Bool := fun _ _ => true

/-- A self-consistent descriptor declaring the image `img.qcow2` with
md5sum `m1`. -/
def applianceA : Appliance :=
  ⟨3, some "a1", some [⟨"img.qcow2", "m1", "v1"⟩],
    [⟨"v1", [("hda_disk_image", "img.qcow2")]⟩]⟩

/-- A second self-consistent descriptor declaring the very same image
record (same filename, same md5sum) under a different appliance id. -/
def applianceB : Appliance :=
  ⟨3, some "a2", some [⟨"img.qcow2", "m1", "v1"⟩],
    [⟨"v1", [("hda_disk_image", "img.qcow2")]⟩]⟩

/-- A descriptor whose `images` list contains two records with the same
filename. -/
def applianceDup : Appliance :=
  ⟨3, some "a5", some [⟨"i1", "m1", "v1"⟩, ⟨"i1", "m2", "v1"⟩],
    [⟨"v1", [("hda", "i1")]⟩]⟩

/-- A descriptor with one image and a version whose `images` mapping is
empty. -/
def applianceEmptyVer : Appliance :=
  ⟨3, some "a4", some [⟨"i1", "m1", "v1"⟩], [⟨"v1", []⟩]⟩

/-! ### Lemmas about the schema-tightening transformation -/

theorem napItemsFields_keys (fs : List (String × Json)) :
    (napItemsFields fs).map Prod.fst = fs.map Prod.fst := by
  induction fs with
  | nil => rfl
  | cons p rest ih =>
      obtain ⟨k, v⟩ := p
      by_cases h : k = "items" <;> simp [napItemsFields, h, ih]

theorem napSetProps_keys (fs : List (String × Json)) :
    (napSetProps fs).map Prod.fst = fs.map Prod.fst := by
  induction fs with
  | nil => rfl
  | cons p rest ih =>
      obtain ⟨k, v⟩ := p
      by_cases h : k = "properties" <;> simp [napSetProps, h, ih]

theorem napPropsFields_keys (ps : List (String × Json)) :
    (napPropsFields ps).map Prod.fst = ps.map Prod.fst := by
  induction ps with
  | nil => rfl
  | cons p rest ih =>
      obtain ⟨k, v⟩ := p
      by_cases h : isObj v <;> simp [napPropsFields, h, ih]

theorem hasKey_napItemsFields (fs : List (String × Json)) (k : String) :
    hasKey (napItemsFields fs) k = hasKey fs k := by
  simp [hasKey, napItemsFields_keys]

theorem hasKey_napSetProps (fs : List (String × Json)) (k : String) :
    hasKey (napSetProps fs) k = hasKey fs k := by
  simp [hasKey, napSetProps_keys]

theorem hasKey_iff (fs : List (String × Json)) (k : String) :
    hasKey fs k = true ↔ k ∈ fs.map Prod.fst := by
  simp [hasKey, List.contains, List.elem_iff]

theorem hasKey_addAP_of_ne (fs : List (String × Json)) (k : String)
    (h : k ≠ "additionalProperties") :
    hasKey (addAP fs) k = hasKey fs k := by
  unfold addAP
  split
  · rfl
  · rw [Bool.eq_iff_iff, hasKey_iff, hasKey_iff]
    simp [h]

theorem hasKey_addAP_self (fs : List (String × Json)) :
    hasKey (addAP fs) "additionalProperties" = true := by
  unfold addAP
  split
  · assumption
  · rw [hasKey_iff]
    simp

theorem addAP_addAP (fs : List (String × Json)) :
    addAP (addAP fs) = addAP fs := by
  have h := hasKey_addAP_self fs
  unfold addAP
  split <;> simp_all [addAP]

theorem napSetProps_append (fs gs : List (String × Json)) :
    napSetProps (fs ++ gs) = napSetProps fs ++ napSetProps gs := by
  induction fs with
  | nil => rfl
  | cons p rest ih => simp [napSetProps, ih]

theorem napSetProps_addAP (fs : List (String × Json)) :
    napSetProps (addAP fs) = addAP (napSetProps fs) := by
  unfold addAP
  rw [hasKey_napSetProps]
  split
  · rfl
  · rw [napSetProps_append]
    simp [napSetProps]

theorem isObj_nap (j : Json) :
    isObj (no_additional_properties j) = isObj j := by
  cases j with
  | obj fs =>
      rw [no_additional_properties]
      split
      · rfl
      · split <;> rfl
  | null => rfl
  | bool b => rfl
  | num n => rfl
  | str s => rfl
  | arr xs => rfl

mutual

theorem nap_idem_aux (j : Json) :
    no_additional_properties (no_additional_properties j)
      = no_additional_properties j := by
  cases j with
  | obj fs =>
      rw [no_additional_properties]
      by_cases hi : hasKey fs "items"
      · rw [if_pos hi, no_additional_properties,
          hasKey_napItemsFields, if_pos hi, napItemsFields_idem_aux]
      · rw [if_neg hi]
        by_cases hp : hasKey fs "properties"
        · rw [if_pos hp, no_additional_properties]
          have hi' : hasKey (addAP (napSetProps fs)) "items" = false := by
            rw [hasKey_addAP_of_ne _ _ (by decide), hasKey_napSetProps]
            exact Bool.eq_false_iff.mpr hi
          have hp' : hasKey (addAP (napSetProps fs)) "properties" = true := by
            rw [hasKey_addAP_of_ne _ _ (by decide), hasKey_napSetProps]
            exact hp
          rw [hi', hp']
          simp only [Bool.false_eq_true, if_false, if_true]
          rw [napSetProps_addAP, addAP_addAP, napSetProps_idem_aux]
        · rw [if_neg hp, no_additional_properties, if_neg hi, if_neg hp]
  | null => rfl
  | bool b => rfl
  | num n => rfl
  | str s => rfl
  | arr xs => rfl

theorem napItemsFields_idem_aux (fs : List (String × Json)) :
    napItemsFields (napItemsFields fs) = napItemsFields fs := by
  match fs with
  | [] => rfl
  | (k, v) :: rest =>
      by_cases h : k = "items"
      · rw [napItemsFields, if_pos h, napItemsFields, if_pos h,
          napCore_idem_aux, napItemsFields_idem_aux rest]
      · rw [napItemsFields, if_neg h, napItemsFields, if_neg h,
          napItemsFields_idem_aux rest]

theorem napCore_idem_aux (j : Json) : napCore (napCore j) = napCore j := by
  cases j with
  | obj fs =>
      rw [napCore]
      by_cases hp : hasKey fs "properties"
      · rw [if_pos hp, napCore]
        have hp' : hasKey (addAP (napSetProps fs)) "properties" = true := by
          rw [hasKey_addAP_of_ne _ _ (by decide), hasKey_napSetProps]
          exact hp
        rw [hp']
        simp only [if_true]
        rw [napSetProps_addAP, addAP_addAP, napSetProps_idem_aux]
      · rw [if_neg hp, napCore, if_neg hp]
  | null => rfl
  | bool b => rfl
  | num n => rfl
  | str s => rfl
  | arr xs => rfl

theorem napSetProps_idem_aux (fs : List (String × Json)) :
    napSetProps (napSetProps fs) = napSetProps fs := by
  match fs with
  | [] => rfl
  | (k, v) :: rest =>
      by_cases h : k = "properties"
      · rw [napSetProps, if_pos h, napSetProps, if_pos h,
          napProps_idem_aux, napSetProps_idem_aux rest]
      · rw [napSetProps, if_neg h, napSetProps, if_neg h,
          napSetProps_idem_aux rest]

theorem napProps_idem_aux (j : Json) : napProps (napProps j) = napProps j := by
  cases j with
  | obj ps => rw [napProps, napProps, napPropsFields_idem_aux]
  | null => rfl
  | bool b => rfl
  | num n => rfl
  | str s => rfl
  | arr xs => rfl

theorem napPropsFields_idem_aux (ps : List (String × Json)) :
    napPropsFields (napPropsFields ps) = napPropsFields ps := by
  match ps with
  | [] => rfl
  | (k, v) :: rest =>
      by_cases h : isObj v
      · rw [napPropsFields, if_pos h, napPropsFields]
        rw [if_pos (by rw [isObj_nap]; exact h)]
        rw [nap_idem_aux, napPropsFields_idem_aux rest]
      · rw [napPropsFields, if_neg h, napPropsFields, if_neg h,
          napPropsFields_idem_aux rest]

end

/-! ### Lemmas about the appliance checker -/

theorem checkImagesLoop_ids (versions : List Version) :
    ∀ (l : List Image) (images : List (String × String)) (md5s : List String)
      (st : RunState) (r : List (String × String) × List String × RunState),
      checkImagesLoop versions l images md5s st = .ok r →
      r.2.2.applianceIds = st.applianceIds := by
  intro l
  induction l with
  | nil =>
      intro images md5s st r h
      rw [checkImagesLoop] at h
      cases h
      rfl
  | cons img rest ih =>
      intro images md5s st r h
      simp only [checkImagesLoop] at h
      split at h
      · exact absurd h (by simp)
      · split at h
        · exact absurd h (by simp)
        · rw [ih _ _ _ _ h]
          split <;> rfl

theorem check_appliance_ids (valid : Int → Appliance → Bool) (a : Appliance)
    (st st' : RunState) (h : check_appliance valid a st = .ok st') :
    st'.applianceIds = st.applianceIds ++ [a.appliance_id] := by
  simp only [check_appliance] at h
  split at h
  · exact absurd h (by simp)
  · split at h
    · exact absurd h (by simp)
    · split at h
      · cases h
        rfl
      · split at h
        · exact absurd h (by simp)
        · split at h
          · exact absurd h (by simp)
          · cases h
            rename_i hImgs
            simpa using checkImagesLoop_ids _ _ _ _ _ _ hImgs

theorem checkAppliances_ids_mono (valid : Int → Appliance → Bool) :
    ∀ (ds : List Appliance) (st st' : RunState),
      checkAppliances valid ds st = .ok st' →
      ∀ x ∈ st.applianceIds, x ∈ st'.applianceIds := by
  intro ds
  induction ds with
  | nil =>
      intro st st' h x hx
      rw [checkAppliances] at h
      cases h
      exact hx
  | cons a rest ih =>
      intro st st' h x hx
      rw [checkAppliances] at h
      split at h
      · exact absurd h (by simp)
      · rename_i st1 heq
        refine ih _ _ h x ?_
        rw [check_appliance_ids valid a st st1 heq]
        exact List.mem_append_left _ hx

theorem checkVersionsLoop_ok_forall (images : List (String × String)) :
    ∀ (l : List Version), checkVersionsLoop images l = .ok () →
      ∀ v ∈ l, checkOneVersion images v = .ok () := by
  intro l
  induction l with
  | nil =>
      intro _ v hv
      cases hv
  | cons v0 rest ih =>
      intro h v hv
      rw [checkVersionsLoop] at h
      split at h
      · exact absurd h (by simp)
      · rename_i u heq
        rcases List.mem_cons.mp hv with rfl | hv'
        · cases u
          exact heq
        · exact ih h v hv'

theorem checkImagesLoop_dup_error (versions : List Version) :
    ∀ (l : List Image) (images : List (String × String)) (md5s : List String)
      (st : RunState),
      ((∃ x ∈ l, x.filename ∈ images.map Prod.fst ∨ x.md5sum ∈ md5s) ∨
        ¬ (l.map Image.filename).Nodup ∨ ¬ (l.map Image.md5sum).Nodup) →
      ∀ r, checkImagesLoop versions l images md5s st ≠ .ok r := by
  intro l
  induction l with
  | nil =>
      intro images md5s st h r _
      rcases h with ⟨x, hx, _⟩ | h | h
      · cases hx
      · exact h (by simp)
      · exact h (by simp)
  | cons img rest ih =>
      intro images md5s st h r
      simp only [checkImagesLoop]
      by_cases h1 : (images.map Prod.fst).contains img.filename = true
      · rw [if_pos h1]
        simp
      · rw [if_neg h1]
        by_cases h2 : md5s.contains img.md5sum = true
        · rw [if_pos h2]
          simp
        · rw [if_neg h2]
          have h1' : img.filename ∉ images.map Prod.fst := fun hm =>
            h1 (List.elem_iff.mpr hm)
          have h2' : img.md5sum ∉ md5s := fun hm => h2 (List.elem_iff.mpr hm)
          refine ih (images ++ [(img.filename, img.version)])
            (md5s ++ [img.md5sum]) _ ?_ r
          rcases h with ⟨x, hx, hin⟩ | hnd | hnd
          · rcases List.mem_cons.mp hx with rfl | hx'
            · rcases hin with hin | hin
              · exact absurd hin h1'
              · exact absurd hin h2'
            · refine Or.inl ⟨x, hx', ?_⟩
              rcases hin with hin | hin
              · exact Or.inl (by simp [hin])
              · exact Or.inr (by simp [hin])
          · rw [List.map_cons, List.nodup_cons, not_and_or, not_not] at hnd
            rcases hnd with hnd | hnd
            · rcases List.mem_map.mp hnd with ⟨x, hx', hfx⟩
              exact Or.inl ⟨x, hx', Or.inl (by simp [hfx])⟩
            · exact Or.inr (Or.inl hnd)
          · rw [List.map_cons, List.nodup_cons, not_and_or, not_not] at hnd
            rcases hnd with hnd | hnd
            · rcases List.mem_map.mp hnd with ⟨x, hx', hfx⟩
              exact Or.inl ⟨x, hx', Or.inr (by simp [hfx])⟩
            · exact Or.inr (Or.inr hnd)

/-! ### Claim theorems -/

/-- C5: schema tightening is idempotent — applying
`no_additional_properties` twice to any schema document yields the same
document as applying it once. -/
theorem c5_schema_tightening_idempotent (j : Json) :
    no_additional_properties (no_additional_properties j)
      = no_additional_properties j :=
  nap_idem_aux j

/-- C6: a descriptor whose `registry_version` lies outside the supported
set `{3, 4, 5, 6}` makes `check_appliance` fail with the
unsupported-version diagnostic, for every validation oracle and every run
state — so no schema validation, downgrade probe, duplicate-id check or
image/version cross-check ever influences the outcome for such a
descriptor. -/
theorem c6_unsupported_version_fatal (valid : Int → Appliance → Bool)
    (a : Appliance) (st : RunState)
    (h : a.registry_version ∉ SCHEMA_VERSIONS) :
    check_appliance valid a st
      = .error (.unsupportedVersion a.registry_version) := by
  unfold check_appliance validate_schema
  simp [h]

theorem c6_unsupported_version_fatal_witness :
    ((7 : Int) ∉ SCHEMA_VERSIONS) ∧
    check_appliance allValid ⟨7, some "x", none, []⟩ ⟨[], 0⟩
      = .error (.unsupportedVersion 7) :=
  ⟨by decide,
    c6_unsupported_version_fatal allValid ⟨7, some "x", none, []⟩ ⟨[], 0⟩
      (by decide)⟩

/-- C2: a descriptor valid at the lowest supported version 3 yields no
downgrade warning; a descriptor valid at a higher supported version whose
lowered copy also validates at the previous version yields exactly one
downgrade warning, and validation succeeds (the run continues). -/
theorem c2_downgrade_warning :
    (∀ (valid : Int → Appliance → Bool) (a : Appliance),
        a.registry_version = 3 → valid 3 a = true →
        validate_schema valid a = .ok 0) ∧
    (∀ (valid : Int → Appliance → Bool) (a : Appliance),
        a.registry_version ∈ SCHEMA_VERSIONS → a.registry_version ≠ 3 →
        valid a.registry_version a = true →
        valid (a.registry_version - 1)
            { a with registry_version := a.registry_version - 1 } = true →
        validate_schema valid a = .ok 1) := by
  constructor
  · intro valid a h hv
    unfold validate_schema
    simp [h, hv, SCHEMA_VERSIONS]
  · intro valid a hmem hne hv hv'
    unfold validate_schema
    have h0 : a.registry_version ≠ SCHEMA_VERSIONS[0]! := by
      simpa [SCHEMA_VERSIONS] using hne
    simp [hmem, hv, h0, hv']

theorem c2_downgrade_warning_witness :
    validate_schema allValid ⟨3, some "x", none, []⟩ = .ok 0 ∧
    validate_schema allValid ⟨4, some "x", none, []⟩ = .ok 1 :=
  ⟨c2_downgrade_warning.1 allValid ⟨3, some "x", none, []⟩ rfl rfl,
    c2_downgrade_warning.2 allValid ⟨4, some "x", none, []⟩ (by decide)
      (by decide) rfl rfl⟩

/-- C10: the licence-file name is computed by replacing EVERY occurrence
of the substring `.svg` with `.txt`, not only a trailing extension: for a
symbol named `a.svg.svg` the licence file looked up is
`symbols/a.txt.txt`, not `symbols/a.svg.txt`. -/
theorem c10_licence_name_replaces_every_occurrence :
    licence_file "symbols" "a.svg.svg" = "symbols/a.txt.txt" ∧
    licence_file "symbols" "a.svg.svg" ≠ "symbols/a.svg.txt" := by
  exact ⟨rfl, by decide⟩

/-- C4: `check_symbol` fails with a missing-licence diagnostic when the
companion licence file does not exist; fails with the oversize diagnostic
when the licence exists but the measured height exceeds 70; and succeeds
with no diagnostic when the licence exists and the height is at most
70. -/
theorem c4_symbol_validator (fsExists : String → Bool)
    (height : String → Int) (symbol symbols_path : String) :
    (fsExists (licence_file symbols_path symbol) = false →
        check_symbol fsExists height symbol symbols_path
          = .error (.missingLicence (licence_file symbols_path symbol))) ∧
    (fsExists (licence_file symbols_path symbol) = true →
        height (pathJoin symbols_path symbol) > 70 →
        check_symbol fsExists height symbol symbols_path
          = .error (.symbolTooBig symbol (height (pathJoin symbols_path symbol)))) ∧
    (fsExists (licence_file symbols_path symbol) = true →
        height (pathJoin symbols_path symbol) ≤ 70 →
        check_symbol fsExists height symbol symbols_path = .ok ()) := by
  refine ⟨fun h => ?_, fun h hh => ?_, fun h hh => ?_⟩
  · unfold check_symbol
    simp [h]
  · unfold check_symbol
    simp [h, hh]
  · unfold check_symbol
    simp [h]
    omega

theorem c4_symbol_validator_witness :
    check_symbol (fun _ => false) (fun _ => 10) "a.svg" "symbols"
      = .error (.missingLicence "symbols/a.txt") ∧
    check_symbol (fun _ => true) (fun _ => 71) "a.svg" "symbols"
      = .error (.symbolTooBig "a.svg" 71) ∧
    check_symbol (fun _ => true) (fun _ => 10) "a.svg" "symbols" = .ok () :=
  ⟨(c4_symbol_validator (fun _ => false) (fun _ => 10) "a.svg" "symbols").1
      rfl,
    (c4_symbol_validator (fun _ => true) (fun _ => 71) "a.svg" "symbols").2.1
      rfl (by decide),
    (c4_symbol_validator (fun _ => true) (fun _ => 10) "a.svg" "symbols").2.2
      rfl (by decide)⟩

/-- C3 (divergence witness): with `--symbols-dir mysymbols`, where the
directory `mysymbols` contains `a.svg` together with its licence
`a.txt`, the symbol pass still fails: the enumeration reads `mysymbols`,
but `check_symbol` is invoked without a directory argument and therefore
looks the files up under the default directory `symbols` — it reports the
licence `symbols/a.txt` as missing even though `mysymbols/a.txt`
exists. -/
theorem c3_symbols_dir_ignored_by_validator :
    symbolsPhase (fun d => if d = "mysymbols" then ["a.svg"] else [])
        (fun p => p == "mysymbols/a.svg" || p == "mysymbols/a.txt")
        (fun _ => 10) "mysymbols"
      = .error (.missingLicence "symbols/a.txt") := by
  decide

/-- C8: an image record that is not a duplicate and whose filename is not
referenced by any version's `images` mapping makes the image loop continue
with the warning counter increased by exactly one — no fatal diagnostic is
produced by the unused-image check. -/
theorem c8_unused_image_one_warning (versions : List Version) (img : Image)
    (rest : List Image) (images : List (String × String))
    (md5s : List String) (st : RunState)
    (hfn : (images.map Prod.fst).contains img.filename = false)
    (hmd : md5s.contains img.md5sum = false)
    (hunused : ∀ v ∈ versions,
        (v.images.map Prod.snd).contains img.filename = false) :
    checkImagesLoop versions (img :: rest) images md5s st
      = checkImagesLoop versions rest
          (images ++ [(img.filename, img.version)]) (md5s ++ [img.md5sum])
          ⟨st.applianceIds, st.warnings + 1⟩ := by
  rw [checkImagesLoop, hfn, hmd]
  have hany : (versions.any fun v =>
      (v.images.map Prod.snd).contains img.filename) = false := by
    rw [List.any_eq_false]
    intro v hv
    rw [hunused v hv]
    simp
  simp only [Bool.false_eq_true, if_false, hany]

theorem c8_unused_image_one_warning_witness :
    checkImagesLoop [⟨"v1", [("hda", "i1")]⟩] [⟨"i2", "m2", "v1"⟩]
        [("i1", "v1")] ["m1"] ⟨[], 0⟩
      = checkImagesLoop [⟨"v1", [("hda", "i1")]⟩] []
          [("i1", "v1"), ("i2", "v1")] ["m1", "m2"] ⟨[], 1⟩ :=
  c8_unused_image_one_warning [⟨"v1", [("hda", "i1")]⟩] ⟨"i2", "m2", "v1"⟩
    [] [("i1", "v1")] ["m1"] ⟨[], 0⟩ (by decide) (by decide) (by decide)

/-- C7: the seen-id registry persists across descriptor files: after a
descriptor `d1` has been checked successfully, and any further descriptors
have been processed successfully, a later descriptor `d2` with the same
`appliance_id` that passes schema validation fails with the duplicate-id
diagnostic at the moment it is checked. -/
theorem c7_duplicate_appliance_id_fatal (valid : Int → Appliance → Bool)
    (d1 d2 : Appliance) (mid : List Appliance) (st0 st1 st2 : RunState)
    (w : Nat)
    (h1 : check_appliance valid d1 st0 = .ok st1)
    (hmid : checkAppliances valid mid st1 = .ok st2)
    (hid : d2.appliance_id = d1.appliance_id)
    (hval : validate_schema valid d2 = .ok w) :
    check_appliance valid d2 st2
      = .error (.duplicateApplianceId d2.appliance_id) := by
  have h1id : d1.appliance_id ∈ st1.applianceIds := by
    rw [check_appliance_ids valid d1 st0 st1 h1]
    simp
  have h2id : d2.appliance_id ∈ st2.applianceIds := by
    rw [hid]
    exact checkAppliances_ids_mono valid mid st1 st2 hmid _ h1id
  unfold check_appliance
  rw [hval]
  simp [h2id]

theorem c7_duplicate_appliance_id_fatal_witness :
    check_appliance allValid ⟨3, some "a1", none, []⟩ ⟨[some "a1"], 0⟩
      = .error (.duplicateApplianceId (some "a1")) :=
  c7_duplicate_appliance_id_fatal allValid applianceA ⟨3, some "a1", none, []⟩
    [] ⟨[], 0⟩ ⟨[some "a1"], 0⟩ ⟨[some "a1"], 0⟩ 0 (by decide) rfl rfl
    (by decide)

/-- C9: a version whose `images` mapping is empty can never set the
per-version match flag, so it is reported as a version mismatch; a
descriptor declaring a non-empty `images` list together with such a
version can never be checked successfully. -/
theorem c9_empty_version_images_fatal :
    (∀ (images : List (String × String)) (v : Version), v.images = [] →
        checkOneVersion images v = .error (.versionMismatch v.name)) ∧
    (∀ (valid : Int → Appliance → Bool) (a : Appliance) (st : RunState)
        (imgs : List Image) (v : Version),
        a.images = some imgs → imgs ≠ [] → v ∈ a.versions → v.images = [] →
        ∀ st', check_appliance valid a st ≠ .ok st') := by
  have part1 : ∀ (images : List (String × String)) (v : Version),
      v.images = [] →
      checkOneVersion images v = .error (.versionMismatch v.name) := by
    intro images v hv
    unfold checkOneVersion
    rw [hv]
    rfl
  refine ⟨part1, ?_⟩
  intro valid a st imgs v ha hne hv hvi st' hok
  simp only [check_appliance] at hok
  split at hok
  · exact absurd hok (by simp)
  · split at hok
    · exact absurd hok (by simp)
    · split at hok
      · rename_i heqNone
        rw [ha] at heqNone
        cases heqNone
      · split at hok
        · exact absurd hok (by simp)
        · split at hok
          · exact absurd hok (by simp)
          · rename_i u hVers
            cases u
            have := checkVersionsLoop_ok_forall _ _ hVers v hv
            rw [part1 _ v hvi] at this
            exact absurd this (by simp)

theorem c9_empty_version_images_fatal_witness :
    checkOneVersion [("i1", "v1")] ⟨"v1", []⟩
      = .error (.versionMismatch "v1") ∧
    check_appliance allValid applianceEmptyVer ⟨[], 0⟩ ≠ .ok ⟨[some "a4"], 0⟩ :=
  ⟨c9_empty_version_images_fatal.1 [("i1", "v1")] ⟨"v1", []⟩ rfl,
    c9_empty_version_images_fatal.2 allValid applianceEmptyVer ⟨[], 0⟩
      [⟨"i1", "m1", "v1"⟩] ⟨"v1", []⟩ rfl (by decide) (by decide) rfl
      ⟨[some "a4"], 0⟩⟩

/-- C1 (refuting the run-wide scope): two descriptors in the same run that
declare the very same image record — identical filename AND identical
md5sum — are both accepted, and the whole run succeeds: the
duplicate-filename and duplicate-md5sum registries are created afresh for
every descriptor file, so cross-file duplicates are not detected. -/
theorem c1_counterexample_cross_file_duplicate_accepted :
    applianceA.images = some [⟨"img.qcow2", "m1", "v1"⟩] ∧
    applianceB.images = some [⟨"img.qcow2", "m1", "v1"⟩] ∧
    applianceA.appliance_id ≠ applianceB.appliance_id ∧
    checkAppliances allValid [applianceA, applianceB] ⟨[], 0⟩
      = .ok ⟨[some "a1", some "a2"], 0⟩ :=
  ⟨rfl, rfl, by decide, by decide⟩

/-- C1 (amended): the duplicate-image registries are scoped to a single
descriptor file: whenever the `images` list of one descriptor contains two
records sharing a filename, or two records sharing an md5sum, checking
that descriptor fails; across descriptor files no such duplicate detection
happens. -/
theorem c1_amended_per_file_duplicate_fatal
    (valid : Int → Appliance → Bool) (a : Appliance) (st : RunState)
    (imgs : List Image) (ha : a.images = some imgs)
    (hdup : ¬ (imgs.map Image.filename).Nodup ∨
      ¬ (imgs.map Image.md5sum).Nodup) :
    ∀ st', check_appliance valid a st ≠ .ok st' := by
  intro st' hok
  simp only [check_appliance] at hok
  split at hok
  · exact absurd hok (by simp)
  · split at hok
    · exact absurd hok (by simp)
    · split at hok
      · rename_i heqNone
        rw [ha] at heqNone
        cases heqNone
      · split at hok
        · exact absurd hok (by simp)
        · rename_i xOpt imgsA heqA xExc imagesD md5sD st3 hImgs
          rw [ha] at heqA
          cases heqA
          exact checkImagesLoop_dup_error a.versions imgs [] [] _
            (Or.inr hdup) (imagesD, md5sD, st3) hImgs

theorem c1_amended_per_file_duplicate_fatal_witness :
    check_appliance allValid applianceDup ⟨[], 0⟩ ≠ .ok ⟨[], 0⟩ :=
  c1_amended_per_file_duplicate_fatal allValid applianceDup ⟨[], 0⟩
    [⟨"i1", "m1", "v1"⟩, ⟨"i1", "m2", "v1"⟩] rfl (Or.inl (by decide))
    ⟨[], 0⟩

end GNS3
